import Mathlib

/-!
# Shallow embedding of `magicformulabr` (`src/magicformulabr/main.py`)

This file embeds the core of the Magic Formula ranking script in Lean 4 and
proves the specification claims about it.

Modelling conventions:
* A pandas `DataFrame` used by the ranking pipeline is a `List Row`, one entry
  per row in frame order.  The index label (`Papel`, the ticker) is the
  `ticker` field.  The three numeric columns the pipeline reads — the
  earnings-yield column, the return-on-capital column (both selected by the
  chosen method, see `MAGIC_METHOD_FIELD` in the source) and `Liq.2meses` —
  are the fields `ey`, `roc` and `liq`.  The three ranking columns added by
  `_calculate_rank` are `Option ℕ` fields, `none` while the column is absent.
* Python floats are modelled as `ℚ`; all values appearing in the claims are
  exactly representable and only ordered comparisons and small sums matter.
* `sys.exit`, logging and cache writes are made observable by returning an
  explicit trace (`GetDataTrace`).
-/

/-! ### pandas `Series.rank` with `method="min"`

`Series.rank(ascending=True, method="min")` assigns to each entry one plus
the number of entries strictly smaller than it (tied entries all receive the
rank of the first member of the tie group in ascending sorted order).  With
`ascending=False` the comparison is reversed. -/

/-- Embedding of `df[col].rank(ascending=True, method="min")` for one value
`v` of the column, where `vs` is the whole column. -/
def rank_min_asc (vs : List ℚ) (v : ℚ) : ℕ :=
  1 + vs.countP (fun x => decide (x < v))

/-- Embedding of `df[col].rank(ascending=False, method="min")` for one value
`v` of the column, where `vs` is the whole column. -/
def rank_min_desc (vs : List ℚ) (v : ℚ) : ℕ :=
  1 + vs.countP (fun x => decide (v < x))

/-! ### The pipeline data frame -/

/-- One row of the data frame used by `MagicFormula`.  `ey`, `roc`, `liq` are
the values of the earnings-yield column, the return-on-capital column and the
`Liq.2meses` column; the rank fields model the columns `Rank_earnings_yield`,
`Rank_return_on_capital` and `Rank_Final`, absent (`none`) until
`_calculate_rank` adds them. -/
structure Row where
  ticker : String
  ey : ℚ
  roc : ℚ
  liq : ℚ
  rankEy : Option ℕ
  rankRoc : Option ℕ
  rankFinal : Option ℕ
deriving DecidableEq

/-- A raw input row: ranking columns not yet present. -/
def Row.data (ticker : String) (ey roc liq : ℚ) : Row :=
  ⟨ticker, ey, roc, liq, none, none, none⟩

/-- Embedding of `MagicFormula._remove_rows(col_name, min_value)`:
`tickers = pd_df.loc[pd_df[col_name] <= min_value].index` followed by
`pd_df.drop(tickers)`.  `drop` removes every row whose index label occurs in
`tickers` (label-based removal, exactly as pandas does). -/
def remove_rows (df : List Row) (col : Row → ℚ) (minValue : ℚ) : List Row :=
  let tickers := (df.filter (fun r => decide (col r ≤ minValue))).map Row.ticker
  df.filter (fun r => decide (r.ticker ∉ tickers))

/-- Embedding of `MagicFormula._filter_data`: the three `_remove_rows` calls
on the earnings-yield column, the return-on-capital column and `Liq.2meses`,
in that order, each with threshold `0`. -/
def filter_data (df : List Row) : List Row :=
  remove_rows (remove_rows (remove_rows df Row.ey 0) Row.roc 0) Row.liq 0

/-- The sort key of `sort_values(by="Rank_Final", ascending=True)`; rows fed
to the sort always carry a `Rank_Final` value. -/
def finalKey (r : Row) : ℕ :=
  r.rankFinal.getD 0

/-- Comparison used by the final sort. -/
def byFinal (a b : Row) : Prop :=
  finalKey a ≤ finalKey b

instance : DecidableRel byFinal := fun a b => Nat.decLe (finalKey a) (finalKey b)

instance : IsTotal Row byFinal := ⟨fun a b => Nat.le_total (finalKey a) (finalKey b)⟩

instance : IsTrans Row byFinal := ⟨fun _ _ _ h h' => Nat.le_trans h h'⟩

/-- The three column assignments of `_calculate_rank`: add
`Rank_earnings_yield`, `Rank_return_on_capital` and their sum `Rank_Final`
to every row (row order unchanged; `map` mirrors pandas column-wise
assignment). -/
def add_ranks (df : List Row) : List Row :=
  let eys := df.map Row.ey
  let rocs := df.map Row.roc
  df.map (fun r =>
    ⟨r.ticker, r.ey, r.roc, r.liq,
      some (rank_min_asc eys r.ey),
      some (rank_min_desc rocs r.roc),
      some (rank_min_asc eys r.ey + rank_min_desc rocs r.roc)⟩)

/-- Embedding of `MagicFormula._calculate_rank`: short-circuit on an empty
frame, otherwise add the three ranking columns and sort by `Rank_Final`
ascending.  The program calls `sort_values` with the default
`kind="quicksort"`, which guarantees only the order of the sort keys, not
the relative order of tied keys; the model returns the canonical sorted
result with ties in pre-sort order.  No proved property relies on that tie
order: the theorems below are either tie-order-insensitive or concern
frames of at most 15 rows, where numpy's quicksort takes its insertion-sort
path and coincides with the model.  On larger frames the program's tie
order is unspecified — see the C2 evidence theorem. -/
def calculate_rank (df : List Row) : List Row :=
  if df.isEmpty then df
  else List.insertionSort byFinal (add_ranks df)

/-- What `main` does with the processed frame: the empty-result message, or a
call to `display_results`. -/
inductive MainDisplay where
  | message (s : String)
  | results (df : List Row)
deriving DecidableEq

/-- Embedding of the tail of `main`: `if ranked_df.empty: print(...)` else
`display_results(ranked_df, args)`. -/
def main_display (ranked : List Row) : MainDisplay :=
  if ranked.isEmpty then
    MainDisplay.message "No companies passed the filtering criteria. The ranking is empty."
  else MainDisplay.results ranked

/-! ### `DataSourceHandler` -/

/-- Embedding of `DataSourceHandler.is_cache_valid`.  `cacheExists` is
`os.path.exists(cache_file)`, `now` is `time.time()`, `mtime` is
`os.path.getmtime(cache_file)` and `duration` is `cache_duration`. -/
def is_cache_valid (cacheExists : Bool) (now mtime duration : ℚ) : Bool :=
  if !cacheExists then false
  else if now - mtime > duration then false
  else true

/-- Observable outcome of one `get_data` call.  `exitCode` is `some c` when
the call ran `sys.exit(c)`, `fetchCount` counts HTTP fetches issued,
`errorLogged` records a `logging.error` call, `returned` is the frame the
call returned (`none` if it exited instead), and `cacheAfter` is the cache
file's content after the call (`none` if the file does not exist). -/
structure GetDataTrace (α : Type) where
  exitCode : Option ℕ
  fetchCount : ℕ
  errorLogged : Bool
  returned : Option (List α)
  cacheAfter : Option (List α)
deriving DecidableEq

/-- Embedding of `DataSourceHandler.get_data` (together with the error exit
inside `fetch_data`).  `cache` is the cache file's content (`none` when the
file does not exist); `fetchOutcome` is what an HTTP fetch would produce:
`none` when `requests.get`/`raise_for_status` raises (the
`requests.RequestException` branch of `fetch_data`, which logs and exits
with status 1), `some df` for a parsed frame. -/
def get_data {α : Type} (force_update : Bool) (cache : Option (List α))
    (now mtime duration : ℚ) (fetchOutcome : Option (List α)) : GetDataTrace α :=
  if force_update || !(is_cache_valid cache.isSome now mtime duration) then
    match fetchOutcome with
    | none => ⟨some 1, 1, true, none, cache⟩
    | some df =>
      if df.isEmpty then ⟨some 1, 1, true, none, cache⟩
      else ⟨none, 1, false, some df, some df⟩
  else ⟨none, 0, false, cache, cache⟩

/-! ### `pct_to_float` and `_apply_converters`

For the normalization stage the frame is modelled generically: a list of
column labels, an index, and rows of cells, because the claim speaks about
columns other than the converted one. -/

/-- A cell of a raw frame: either a string (as delivered for percentage
columns) or a number. -/
inductive CellVal where
  | str (s : String)
  | num (q : ℚ)
deriving DecidableEq

/-- A generic data frame: column labels, index labels, and one list of cells
per row (aligned with `cols`). -/
structure Frame where
  cols : List String
  index : List CellVal
  data : List (List CellVal)
deriving DecidableEq

/-- Digit string to natural number, most significant digit first. -/
def digitsToNat (cs : List Char) : ℕ :=
  cs.foldl (fun n c => 10 * n + (c.toNat - 48)) 0

/-- Python `float` on an unsigned decimal literal: digits with an optional
single point and at least one digit overall.  (The model covers the decimal
forms the program ever passes to `float`; exponents, underscores, infinities
and surrounding whitespace are outside the program's data and not modelled.) -/
def parseUnsigned (cs : List Char) : Option ℚ :=
  let intPart := cs.takeWhile Char.isDigit
  let rest := cs.dropWhile Char.isDigit
  match rest with
  | [] => if intPart.isEmpty then none else some ((digitsToNat intPart : ℚ))
  | '.' :: frac =>
    if frac.all Char.isDigit && !(intPart.isEmpty && frac.isEmpty) then
      some ((digitsToNat intPart : ℚ) + (digitsToNat frac : ℚ) / (10 ^ frac.length))
    else none
  | _ => none

/-- Python `float` on a decimal literal with an optional sign. -/
def str_to_float (cs : List Char) : Option ℚ :=
  match cs with
  | '-' :: rest => (parseUnsigned rest).map Neg.neg
  | '+' :: rest => parseUnsigned rest
  | _ => parseUnsigned cs

/-- Embedding of `MagicFormula.pct_to_float`:
`float(number.strip("%").replace(".", "").replace(",", "."))`.
`strip("%")` removes `%` characters from both ends, `replace(".", "")`
deletes every `.` (the thousands separators), `replace(",", ".")` turns the
decimal comma into a decimal point, and `float` parses the result. -/
def pct_to_float (s : String) : Option ℚ :=
  let stripped :=
    ((s.toList.dropWhile (fun c => c == '%')).reverse.dropWhile (fun c => c == '%')).reverse
  let noDots := stripped.filter (fun c => c != '.')
  let swapped := noDots.map (fun c => if c == ',' then '.' else c)
  str_to_float swapped

/-- `pct_to_float` applied to one cell: the Python converter receives the
cell's value; on a non-string it raises (`float.strip` does not exist), on a
malformed string `float` raises — both modelled as `none`. -/
def convert_cell (c : CellVal) : Option CellVal :=
  match c with
  | CellVal.str s => (pct_to_float s).map CellVal.num
  | CellVal.num _ => none

/-- Convert the cell at column position `j` of one row. -/
def convert_row (j : ℕ) (row : List CellVal) : Option (List CellVal) :=
  match row[j]? with
  | none => none
  | some c => (convert_cell c).map (fun c2 => row.set j c2)

/-- `Series.apply(pct_to_float)` over all rows, column position `j`. -/
def convert_rows (j : ℕ) : List (List CellVal) → Option (List (List CellVal))
  | [] => some []
  | row :: rest =>
    match convert_row j row, convert_rows j rest with
    | some r2, some rs => some (r2 :: rs)
    | _, _ => none

/-- Embedding of `MagicFormula._apply_converters`: the converter table is
`{ret_on_capital: pct_to_float}`; for each entry, if the column is present in
the frame, replace that column by applying the converter to every value. -/
def apply_converters (rocCol : String) (f : Frame) : Option Frame :=
  if rocCol ∈ f.cols then
    let j := f.cols.findIdx (fun c => c == rocCol)
    match convert_rows j f.data with
    | none => none
    | some rows => some ⟨f.cols, f.index, rows⟩
  else some f

/-! ### `display_results`

To make the claim about aliasing provable, frames live on an explicit heap
(`List Frame`) and the argument is a reference (an index) into it:
`df.copy()` allocates a fresh object at the end of the heap, and the
`inplace=True` mutations write through the copy's reference only. -/

/-- `MAGIC_METHOD_FIELD` of the source: method number to the pair
(earnings-yield column, return-on-capital column); `none` models the
`KeyError` of a missing key. -/
def MAGIC_METHOD_FIELD (method : ℕ) : Option (String × String) :=
  match method with
  | 1 => some ("P/L", "ROE")
  | 2 => some ("EV/EBIT", "ROIC")
  | 3 => some ("EV/EBITDA", "ROIC")
  | _ => none

/-- `list(dict.fromkeys(keep_cols))`: de-duplicate keeping the first
occurrence of each label. -/
def dedup_keep_first : List String → List String
  | [] => []
  | x :: xs => x :: dedup_keep_first (xs.filter (fun y => y != x))
termination_by l => l.length
decreasing_by
  simp only [List.length_cons]
  exact Nat.lt_succ_of_le (List.length_filter_le _ _)

/-- `df.reset_index(inplace=True, names="Ticker")`: the index becomes the
first column, the new index is `0, 1, 2, …`. -/
def reset_index (name : String) (f : Frame) : Frame :=
  ⟨name :: f.cols,
    (List.range f.data.length).map (fun i => CellVal.num i),
    (f.index.zip f.data).map (fun p => p.1 :: p.2)⟩

/-- `df.index = df.index + 1`. -/
def bump_index (f : Frame) : Frame :=
  ⟨f.cols,
    f.index.map (fun c =>
      match c with
      | CellVal.num q => CellVal.num (q + 1)
      | c2 => c2),
    f.data⟩

/-- `df.head(n)`: the first `n` rows; with a negative `n`, all rows but the
last `|n|`. -/
def head_frame (n : ℤ) (f : Frame) : Frame :=
  let k : ℕ := if 0 ≤ n then n.toNat else f.data.length - (-n).toNat
  ⟨f.cols, f.index.take k, f.data.take k⟩

/-- `to_string(columns=names)`: the view restricted to the named columns, in
the given order (`none` models the `KeyError` on a missing column). -/
def select_columns (names : List String) (f : Frame) : Option Frame :=
  if names.all (fun s => decide (s ∈ f.cols)) then
    some ⟨names, f.index,
      f.data.map (fun row =>
        names.map (fun s => row.getD (f.cols.findIdx (fun c => c == s)) (CellVal.str "")))⟩
  else none

/-- Embedding of `display_results(df, args)` over the heap model: returns the
heap after the call and the rendered view (`none` when a lookup raised).
The steps mirror the source line by line: copy, choose `keep_cols` by
verbosity, de-duplicate, `reset_index(inplace=True)`, 1-based re-indexing,
`head(args.top)` and column selection for printing. -/
def display_results (heap : List Frame) (dfRef : ℕ) (method : ℕ) (verbose : ℕ)
    (top : ℤ) : List Frame × Option Frame :=
  let df := heap.getD dfRef ⟨[], [], []⟩
  let heap1 := heap ++ [df]
  let dRef := heap.length
  let base_cols := ["Rank_earnings_yield", "Rank_return_on_capital", "Rank_Final"]
  match MAGIC_METHOD_FIELD method with
  | none => (heap1, none)
  | some mcols =>
    let keep_cols :=
      if verbose == 0 then [mcols.1, mcols.2] ++ base_cols
      else if verbose == 1 then
        ["Cotação", "Div.Yield", "ROIC", "ROE", "P/L", "EV/EBIT", "EV/EBITDA",
          mcols.1, mcols.2] ++ base_cols
      else (heap1.getD dRef ⟨[], [], []⟩).cols
    let keep_cols2 := dedup_keep_first keep_cols
    let heap2 := heap1.set dRef (reset_index "Ticker" (heap1.getD dRef ⟨[], [], []⟩))
    let heap3 := heap2.set dRef (bump_index (heap2.getD dRef ⟨[], [], []⟩))
    let shown := select_columns ("Ticker" :: keep_cols2)
      (head_frame top (heap3.getD dRef ⟨[], [], []⟩))
    (heap3, shown)

/-- 0-based position of the first occurrence of `v` in `l`. -/
def firstPos (v : ℚ) : List ℚ → ℕ
  | [] => 0
  | x :: xs => if x = v then 0 else firstPos v xs + 1

/-- A column in ascending sorted order. -/
def sortAsc (vs : List ℚ) : List ℚ :=
  List.insertionSort (· ≤ ·) vs

/-- A column in descending sorted order. -/
def sortDesc (vs : List ℚ) : List ℚ :=
  List.insertionSort (· ≥ ·) vs

/-- The row `add_ranks` produces from input row `x` of frame `df`. -/
def ranked_row (df : List Row) (x : Row) : Row :=
  ⟨x.ticker, x.ey, x.roc, x.liq,
    some (rank_min_asc (df.map Row.ey) x.ey),
    some (rank_min_desc (df.map Row.roc) x.roc),
    some (rank_min_asc (df.map Row.ey) x.ey + rank_min_desc (df.map Row.roc) x.roc)⟩

/-- The rational 1/5 = 0.2 (the fixture's EV/EBIT value for AAAA3) given by
its reduced numerator and denominator, so that kernel evaluation never has to
normalize a fraction. -/
def q0_2 : ℚ :=
  ⟨1, 5, by norm_num, by simp⟩

/-- A filtered table of 17 rows, all with earnings-yield 1, return-on-capital
1 and liquidity 1 (pairwise distinct tickers).  Every row receives
`Rank_earnings_yield = 1`, `Rank_return_on_capital = 1`, `Rank_Final = 2`,
so the whole table is one tie group of the final sort — and 17 rows exceed
the insertion-sort cutoff of numpy's quicksort, the regime in which
`sort_values(kind="quicksort")` stops preserving the pre-sort order of
ties. -/
def tied17 : List Row :=
  [Row.data "T01" 1 1 1, Row.data "T02" 1 1 1, Row.data "T03" 1 1 1,
    Row.data "T04" 1 1 1, Row.data "T05" 1 1 1, Row.data "T06" 1 1 1,
    Row.data "T07" 1 1 1, Row.data "T08" 1 1 1, Row.data "T09" 1 1 1,
    Row.data "T10" 1 1 1, Row.data "T11" 1 1 1, Row.data "T12" 1 1 1,
    Row.data "T13" 1 1 1, Row.data "T14" 1 1 1, Row.data "T15" 1 1 1,
    Row.data "T16" 1 1 1, Row.data "T17" 1 1 1]

/-! ### Ordinal positions in sorted order

`firstPos v l + 1` is the 1-based ordinal position of the first occurrence of
`v` in `l`; applied to the sorted column it is the lowest ordinal position of
the tie group of `v`, the quantity the "min" tie-break is specified by. -/

theorem firstPos_sorted_asc {l : List ℚ} (hl : List.Sorted (· ≤ ·) l) {v : ℚ}
    (hv : v ∈ l) : firstPos v l = l.countP (fun x => decide (x < v)) := by
  induction l with
  | nil => cases hv
  | cons a l ih =>
    rw [List.sorted_cons] at hl
    obtain ⟨ha, hl⟩ := hl
    by_cases hav : a = v
    · subst hav
      have h0 : l.countP (fun x => decide (x < a)) = 0 :=
        List.countP_eq_zero.mpr (fun x hx => by simpa using not_lt.mpr (ha x hx))
      simp [firstPos, List.countP_cons, h0]
    · have hvl : v ∈ l := by
        cases hv with
        | head => exact absurd rfl hav
        | tail _ h => exact h
      have hav2 : a < v := lt_of_le_of_ne (ha v hvl) hav
      simp [firstPos, hav, List.countP_cons, hav2, ih hl hvl, Nat.add_comm]

theorem firstPos_sorted_desc {l : List ℚ} (hl : List.Sorted (· ≥ ·) l) {v : ℚ}
    (hv : v ∈ l) : firstPos v l = l.countP (fun x => decide (v < x)) := by
  induction l with
  | nil => cases hv
  | cons a l ih =>
    rw [List.sorted_cons] at hl
    obtain ⟨ha, hl⟩ := hl
    by_cases hav : a = v
    · subst hav
      have h0 : l.countP (fun x => decide (a < x)) = 0 :=
        List.countP_eq_zero.mpr (fun x hx => by simpa using not_lt.mpr (ha x hx))
      simp [firstPos, List.countP_cons, h0]
    · have hvl : v ∈ l := by
        cases hv with
        | head => exact absurd rfl hav
        | tail _ h => exact h
      have hav2 : v < a := lt_of_le_of_ne (ha v hvl) (fun h => hav h.symm)
      simp [firstPos, hav, List.countP_cons, hav2, ih hl hvl, Nat.add_comm]

/-- The "min" ascending rank of a present value is the lowest 1-based ordinal
position of that value in the ascending sorted column. -/
theorem rank_min_asc_eq_pos {vs : List ℚ} {v : ℚ} (hv : v ∈ vs) :
    rank_min_asc vs v = firstPos v (sortAsc vs) + 1 := by
  have hperm := List.perm_insertionSort (fun a b : ℚ => a ≤ b) vs
  have hsorted := List.sorted_insertionSort (fun a b : ℚ => a ≤ b) vs
  have hmem : v ∈ sortAsc vs := (List.mem_insertionSort _).mpr hv
  rw [rank_min_asc, ← hperm.countP_eq (fun x => decide (x < v)),
    ← firstPos_sorted_asc hsorted hmem]
  exact Nat.add_comm 1 _

/-- The "min" descending rank of a present value is the lowest 1-based
ordinal position of that value in the descending sorted column. -/
theorem rank_min_desc_eq_pos {vs : List ℚ} {v : ℚ} (hv : v ∈ vs) :
    rank_min_desc vs v = firstPos v (sortDesc vs) + 1 := by
  have hperm := List.perm_insertionSort (fun a b : ℚ => a ≥ b) vs
  have hsorted := List.sorted_insertionSort (fun a b : ℚ => a ≥ b) vs
  have hmem : v ∈ sortDesc vs := (List.mem_insertionSort _).mpr hv
  rw [rank_min_desc, ← hperm.countP_eq (fun x => decide (v < x)),
    ← firstPos_sorted_desc hsorted hmem]
  exact Nat.add_comm 1 _

theorem add_ranks_eq_map (df : List Row) : add_ranks df = df.map (ranked_row df) :=
  rfl

theorem mem_calculate_rank {df : List Row} {r : Row} (hr : r ∈ calculate_rank df) :
    ∃ x, x ∈ df ∧ r = ranked_row df x := by
  rw [calculate_rank] at hr
  by_cases hdf : df.isEmpty = true
  · rw [if_pos hdf] at hr
    rw [List.isEmpty_iff] at hdf
    subst hdf
    cases hr
  · rw [if_neg hdf] at hr
    rw [List.mem_insertionSort, add_ranks_eq_map] at hr
    obtain ⟨x, hx, hxr⟩ := List.mem_map.mp hr
    exact ⟨x, hx, hxr.symm⟩

/-- C1: After the Rank stage, rows with equal earnings-yield value have equal
`Rank_earnings_yield`, equal to the lowest 1-based ordinal position of the
tie group in the ascending sorted column; symmetrically, rows with equal
return-on-capital value have equal `Rank_return_on_capital`, equal to the
lowest ordinal position in the descending sorted column (higher value, lower
rank).  Since every rank is an exact ordinal position of the sorted column,
ties introduce no gaps beyond the tie groups themselves. -/
theorem C1_rank_min_tie_semantics (df : List Row) (r s : Row)
    (hr : r ∈ calculate_rank df) (hs : s ∈ calculate_rank df) :
    (r.ey = s.ey → r.rankEy = s.rankEy) ∧
    (r.roc = s.roc → r.rankRoc = s.rankRoc) ∧
    r.rankEy = some (firstPos r.ey (sortAsc (df.map Row.ey)) + 1) ∧
    r.rankRoc = some (firstPos r.roc (sortDesc (df.map Row.roc)) + 1) := by
  obtain ⟨x, hx, rfl⟩ := mem_calculate_rank hr
  obtain ⟨y, hy, rfl⟩ := mem_calculate_rank hs
  have hex : x.ey ∈ df.map Row.ey := List.mem_map_of_mem Row.ey hx
  have hrx : x.roc ∈ df.map Row.roc := List.mem_map_of_mem Row.roc hx
  refine ⟨?_, ?_, ?_, ?_⟩
  · intro h
    simp only [ranked_row] at h ⊢
    rw [h]
  · intro h
    simp only [ranked_row] at h ⊢
    rw [h]
  · simp only [ranked_row]
    rw [rank_min_asc_eq_pos hex]
  · simp only [ranked_row]
    rw [rank_min_desc_eq_pos hrx]

theorem C1_rank_min_tie_semantics_witness :
    Row.mk "AAAA3" 1 5 1 (some 1) (some 2) (some 3) ∈
      calculate_rank [Row.data "AAAA3" 1 5 1, Row.data "BBBB3" 1 7 1] ∧
    (Row.mk "AAAA3" 1 5 1 (some 1) (some 2) (some 3)).rankEy =
      (Row.mk "BBBB3" 1 7 1 (some 1) (some 1) (some 2)).rankEy :=
  ⟨by decide,
    (C1_rank_min_tie_semantics [Row.data "AAAA3" 1 5 1, Row.data "BBBB3" 1 7 1]
      (Row.mk "AAAA3" 1 5 1 (some 1) (some 2) (some 3))
      (Row.mk "BBBB3" 1 7 1 (some 1) (some 1) (some 2))
      (by decide) (by decide)).1 rfl⟩

/-- C2 (code-bug evidence at the failing input): on `tied17` the faithful
part of the Rank stage gives every one of the 17 rows
`Rank_earnings_yield = 1`, `Rank_return_on_capital = 1` and
`Rank_Final = 1 + 1 = 2` — the sum the claim demands — so all rows are tied
on the sort key and the entire output order is decided by the tie handling
of `sort_values`.  The program's default `kind="quicksort"` does not
preserve the pre-sort order of ties on a frame of this size, while the claim
(and the spec, which the repository's own 4-row test pins at small sizes)
requires stable order. -/
theorem C2_final_rank_ties_unguarded :
    (add_ranks tied17).map Row.rankFinal = List.replicate 17 (some 2) ∧
    (add_ranks tied17).map Row.rankEy = List.replicate 17 (some 1) ∧
    (add_ranks tied17).map Row.rankRoc = List.replicate 17 (some 1) := by
  decide

/-! ### The Filter stage -/

/-- Under unique tickers (an invariant of the data model: the frame is
indexed by ticker), label-based `drop` removes exactly the rows that matched
the threshold predicate. -/
theorem remove_rows_eq_filter {df : List Row} {col : Row → ℚ} {m : ℚ}
    (h : (df.map Row.ticker).Nodup) :
    remove_rows df col m = df.filter (fun r => decide (¬ col r ≤ m)) := by
  rw [remove_rows]
  apply List.filter_congr
  intro r hrdf
  rw [decide_eq_decide]
  constructor
  · intro hnot hcol
    exact hnot
      (List.mem_map_of_mem Row.ticker
        (List.mem_filter.mpr ⟨hrdf, by simpa using hcol⟩))
  · intro hncol hmem
    obtain ⟨s, hs, hst⟩ := List.mem_map.mp hmem
    obtain ⟨hsdf, hscol⟩ := List.mem_filter.mp hs
    have hsr : s = r := List.inj_on_of_nodup_map h hsdf hrdf hst
    exact hncol (by simpa [hsr] using hscol)

theorem nodup_ticker_filter {df : List Row} (h : (df.map Row.ticker).Nodup)
    (p : Row → Bool) : ((df.filter p).map Row.ticker).Nodup :=
  List.Nodup.sublist (List.Sublist.map Row.ticker (List.filter_sublist df)) h

/-- C3: For every input table (tickers unique, the data-model invariant),
the Filter stage keeps exactly the rows with earnings-yield > 0 and
return-on-capital > 0 and liquidity > 0, i.e. it removes exactly the union
of the three per-column `≤ 0` exclusions and no other row. -/
theorem C3_filter_exact_union (df : List Row) (h : (df.map Row.ticker).Nodup) :
    filter_data df =
      df.filter (fun r => decide (¬ (r.ey ≤ 0 ∨ r.roc ≤ 0 ∨ r.liq ≤ 0))) ∧
    ∀ r ∈ df, (r ∉ filter_data df ↔ (r.ey ≤ 0 ∨ r.roc ≤ 0 ∨ r.liq ≤ 0)) := by
  have heq : filter_data df =
      df.filter (fun r => decide (¬ (r.ey ≤ 0 ∨ r.roc ≤ 0 ∨ r.liq ≤ 0))) := by
    rw [filter_data, remove_rows_eq_filter h,
      remove_rows_eq_filter (nodup_ticker_filter h _),
      remove_rows_eq_filter (nodup_ticker_filter (nodup_ticker_filter h _) _),
      List.filter_filter, List.filter_filter]
    apply List.filter_congr
    intro r _
    by_cases h1 : r.ey ≤ 0 <;> by_cases h2 : r.roc ≤ 0 <;>
      by_cases h3 : r.liq ≤ 0 <;> simp [h1, h2, h3]
  refine ⟨heq, ?_⟩
  intro r hrdf
  rw [heq, List.mem_filter]
  by_cases hu : r.ey ≤ 0 ∨ r.roc ≤ 0 ∨ r.liq ≤ 0 <;> simp [hrdf, hu]

theorem C3_filter_exact_union_witness :
    filter_data
      [Row.data "AAAA3" 1 1 1, Row.data "BBBB3" (-1) 1 1,
        Row.data "CCCC3" 1 (-1) 1, Row.data "DDDD4" 1 1 0] =
      [Row.data "AAAA3" 1 1 1] := by
  rw [(C3_filter_exact_union
    [Row.data "AAAA3" 1 1 1, Row.data "BBBB3" (-1) 1 1,
      Row.data "CCCC3" 1 (-1) 1, Row.data "DDDD4" 1 1 0] (by decide)).1]
  decide

/-! ### Cache validity and `get_data` -/

/-- C4 counterexample: at an age exactly equal to the configured duration the
cache is **valid** (the code refetches only on strictly greater age), so the
claim's parenthetical "an age exactly equal to the duration is invalid" is
false.  Here the file exists, `now = 86400`, `mtime = 0`, `duration = 86400`:
age equals the duration and `is_cache_valid` returns `true`. -/
theorem C4_boundary_counterexample :
    is_cache_valid true 86400 0 86400 = true := by
  norm_num [is_cache_valid]

/-- C4 (amended): cache validity is a pure boolean function of the entry's
existence and its age against the configured duration: valid exactly when
the entry exists and its age is less than or equal to the duration; an age
exactly equal to the duration is still valid, and only a strictly greater
age triggers a refetch. -/
theorem C4_cache_validity_amended (cacheExists : Bool) (now mtime duration : ℚ) :
    is_cache_valid cacheExists now mtime duration = true ↔
      (cacheExists = true ∧ now - mtime ≤ duration) := by
  cases cacheExists
  · simp [is_cache_valid]
  · by_cases h : now - mtime > duration
    · simp [is_cache_valid, h, not_le.mpr h]
    · simp [is_cache_valid, h, not_lt.mp h]

/-- C5: `get_data` fetches exactly when `force_update` is set or no valid
cache exists (so a valid cache does not stop a forced update); after a
successful non-empty fetch it overwrites the cache store with the fetched
table and returns that table; with `force_update` unset and a valid cache it
performs no fetch, leaves the cache untouched and returns the cached table. -/
theorem C5_get_data_fetch_and_persist {α : Type} (force_update : Bool)
    (cache : Option (List α)) (now mtime duration : ℚ)
    (fetchOutcome : Option (List α)) :
    (get_data force_update cache now mtime duration fetchOutcome).fetchCount =
      (if force_update || !(is_cache_valid cache.isSome now mtime duration)
        then 1 else 0) ∧
    (∀ df, fetchOutcome = some df → df.isEmpty = false →
      (force_update || !(is_cache_valid cache.isSome now mtime duration)) = true →
      (get_data force_update cache now mtime duration fetchOutcome).returned =
          some df ∧
        (get_data force_update cache now mtime duration fetchOutcome).cacheAfter =
          some df) ∧
    (force_update = false →
      is_cache_valid cache.isSome now mtime duration = true →
      (get_data force_update cache now mtime duration fetchOutcome).returned =
          cache ∧
        (get_data force_update cache now mtime duration fetchOutcome).fetchCount =
          0 ∧
        (get_data force_update cache now mtime duration fetchOutcome).cacheAfter =
          cache) := by
  refine ⟨?_, ?_, ?_⟩
  · cases fetchOutcome with
    | none =>
      by_cases hc :
          force_update || !(is_cache_valid cache.isSome now mtime duration) <;>
        simp [get_data, hc]
    | some df =>
      by_cases hc :
          force_update || !(is_cache_valid cache.isSome now mtime duration) <;>
        by_cases hdf : df.isEmpty <;> simp [get_data, hc, hdf]
  · intro df hfo hdf hc
    subst hfo
    simp [get_data, hc, hdf]
  · intro hforce hvalid
    simp [get_data, hforce, hvalid]

theorem C5_get_data_fetch_and_persist_witness :
    (get_data true (some [(0 : ℕ)]) 0 0 86400 (some [7])).returned = some [7] ∧
    (get_data true (some [(0 : ℕ)]) 0 0 86400 (some [7])).cacheAfter = some [7] :=
  (C5_get_data_fetch_and_persist true (some [(0 : ℕ)]) 0 0 86400
    (some [7])).2.1 [7] rfl rfl rfl

/-- C6: If the table is empty after filtering, the Rank stage returns it
unchanged (empty, no ranking columns added) and `main` prints the
"no companies passed the filtering criteria" message instead of rendering a
table; every step is a total function returning normally, no exception. -/
theorem C6_empty_after_filter_terminal (df : List Row)
    (h : filter_data df = []) :
    calculate_rank (filter_data df) = filter_data df ∧
    calculate_rank (filter_data df) = [] ∧
    main_display (calculate_rank (filter_data df)) =
      MainDisplay.message
        "No companies passed the filtering criteria. The ranking is empty." := by
  rw [h]
  exact ⟨rfl, rfl, rfl⟩

theorem C6_empty_after_filter_terminal_witness :
    main_display (calculate_rank (filter_data [Row.data "AAAA3" (-1) 5 5])) =
      MainDisplay.message
        "No companies passed the filtering criteria. The ranking is empty." :=
  (C6_empty_after_filter_terminal [Row.data "AAAA3" (-1) 5 5] (by decide)).2.2

/-- C7: When a fetch is attempted (forced update or no valid cache) and it
fails — the HTTP request raises, or the fetched table is empty — the handler
logs the error and exits with status 1: exactly one fetch is issued (no
retry), nothing is returned, and the cache is not read as a fallback. -/
theorem C7_fetch_failure_exits {α : Type} (force_update : Bool)
    (cache : Option (List α)) (now mtime duration : ℚ)
    (fetchOutcome : Option (List α))
    (hfetch : (force_update ||
      !(is_cache_valid cache.isSome now mtime duration)) = true)
    (hfail : fetchOutcome = none ∨ fetchOutcome = some ([] : List α)) :
    (get_data force_update cache now mtime duration fetchOutcome).exitCode =
        some 1 ∧
    (get_data force_update cache now mtime duration fetchOutcome).errorLogged =
        true ∧
    (get_data force_update cache now mtime duration fetchOutcome).returned =
        none ∧
    (get_data force_update cache now mtime duration fetchOutcome).fetchCount =
        1 ∧
    (get_data force_update cache now mtime duration fetchOutcome).cacheAfter =
        cache := by
  cases hfail with
  | inl hnone => subst hnone; simp [get_data, hfetch]
  | inr hempty => subst hempty; simp [get_data, hfetch]

theorem C7_fetch_failure_exits_witness :
    (get_data true (some [(0 : ℕ)]) 0 0 86400 none).exitCode = some 1 ∧
    (get_data true (some [(0 : ℕ)]) 0 0 86400 none).errorLogged = true ∧
    (get_data true (some [(0 : ℕ)]) 0 0 86400 none).returned = none ∧
    (get_data true (some [(0 : ℕ)]) 0 0 86400 none).fetchCount = 1 ∧
    (get_data true (some [(0 : ℕ)]) 0 0 86400 none).cacheAfter = some [0] :=
  C7_fetch_failure_exits true (some [(0 : ℕ)]) 0 0 86400 none rfl (Or.inl rfl)

/-! ### The Normalize stage -/

theorem convert_row_spec {j : ℕ} {row row2 : List CellVal}
    (h : convert_row j row = some row2) :
    (∀ k, k ≠ j → row2[k]? = row[k]?) ∧
    (∀ s, row[j]? = some (CellVal.str s) →
      row2[j]? = (pct_to_float s).map CellVal.num) := by
  rw [convert_row] at h
  cases hj : row[j]? with
  | none => rw [hj] at h; cases h
  | some c =>
    rw [hj] at h
    change Option.map (fun c2 => row.set j c2) (convert_cell c) = some row2 at h
    cases hc : convert_cell c with
    | none => rw [hc] at h; cases h
    | some c2 =>
      rw [hc, Option.map_some'] at h
      obtain rfl := Option.some_inj.mp h
      have hlt : j < row.length := (List.getElem?_eq_some.mp hj).1
      constructor
      · intro k hk
        exact List.getElem?_set_ne (Ne.symm hk)
      · intro s hs
        obtain rfl := Option.some_inj.mp hs
        rw [List.getElem?_set_self hlt, ← hc]
        rfl

theorem convert_rows_spec {j : ℕ} :
    ∀ {rows rows2 : List (List CellVal)}, convert_rows j rows = some rows2 →
      rows2.length = rows.length ∧
      ∀ (i : ℕ) (row row2 : List CellVal), rows[i]? = some row →
        rows2[i]? = some row2 →
        (∀ k, k ≠ j → row2[k]? = row[k]?) ∧
        (∀ s, row[j]? = some (CellVal.str s) →
          row2[j]? = (pct_to_float s).map CellVal.num)
  | [], rows2, h => by
    simp only [convert_rows] at h
    obtain rfl := Option.some_inj.mp h
    exact ⟨rfl, fun i row row2 hrow => by simp at hrow⟩
  | row :: rest, rows2, h => by
    simp only [convert_rows] at h
    cases h1 : convert_row j row with
    | none => rw [h1] at h; cases h
    | some r2 =>
      cases h2 : convert_rows j rest with
      | none => rw [h1, h2] at h; cases h
      | some rs =>
        rw [h1, h2] at h
        obtain rfl := Option.some_inj.mp h
        obtain ⟨hlen, hspec⟩ := convert_rows_spec h2
        refine ⟨by simp [hlen], ?_⟩
        intro i prow prow2 hp hp2
        cases i with
        | zero =>
          rw [List.getElem?_cons_zero] at hp hp2
          obtain rfl := Option.some_inj.mp hp
          obtain rfl := Option.some_inj.mp hp2
          exact convert_row_spec h1
        | succ n =>
          rw [List.getElem?_cons_succ] at hp hp2
          exact hspec n prow prow2 hp hp2

/-- C8: `_apply_converters` converts only the return-on-capital column and
leaves every other column (and the column labels, the index, and the row
count) unchanged; each converted value is `pct_to_float` of the original
percentage-formatted string — strip the `%` sign, delete the `.` thousands
separators, turn the decimal comma into a decimal point, parse as a float —
as on the claim's example `"12,34%" ↦ 12.34 = 617/50`. -/
theorem C8_normalize_only_roc (rocCol : String) (f f2 : Frame)
    (hmem : rocCol ∈ f.cols) (h : apply_converters rocCol f = some f2) :
    f2.cols = f.cols ∧ f2.index = f.index ∧ f2.data.length = f.data.length ∧
    (∀ (i : ℕ) (row row2 : List CellVal), f.data[i]? = some row →
      f2.data[i]? = some row2 →
      (∀ k, k ≠ f.cols.findIdx (fun c => c == rocCol) → row2[k]? = row[k]?) ∧
      (∀ s, row[f.cols.findIdx (fun c => c == rocCol)]? =
          some (CellVal.str s) →
        row2[f.cols.findIdx (fun c => c == rocCol)]? =
          (pct_to_float s).map CellVal.num)) ∧
    pct_to_float "12,34%" = some (617 / 50) := by
  simp only [apply_converters] at h
  rw [if_pos hmem] at h
  cases hcr : convert_rows (f.cols.findIdx (fun c => c == rocCol)) f.data with
  | none => rw [hcr] at h; cases h
  | some rows2 =>
    rw [hcr] at h
    obtain rfl := Option.some_inj.mp h
    obtain ⟨hlen, hspec⟩ := convert_rows_spec hcr
    refine ⟨rfl, rfl, hlen, hspec, ?_⟩
    have h1 : pct_to_float "12,34%" =
        some (((12 : ℕ) : ℚ) + ((34 : ℕ) : ℚ) / 10 ^ 2) := rfl
    rw [h1]
    norm_num

theorem C8_normalize_only_roc_witness :
    apply_converters "ROIC"
        ⟨["ROIC", "P/L"], [CellVal.str "AAAA3"],
          [[CellVal.str "15%", CellVal.num 3]]⟩ =
      some ⟨["ROIC", "P/L"], [CellVal.str "AAAA3"],
        [[CellVal.num ((15 : ℕ) : ℚ), CellVal.num 3]]⟩ ∧
    (⟨["ROIC", "P/L"], [CellVal.str "AAAA3"],
        [[CellVal.num ((15 : ℕ) : ℚ), CellVal.num 3]]⟩ : Frame).cols =
      (⟨["ROIC", "P/L"], [CellVal.str "AAAA3"],
        [[CellVal.str "15%", CellVal.num 3]]⟩ : Frame).cols :=
  ⟨rfl,
    (C8_normalize_only_roc "ROIC"
      ⟨["ROIC", "P/L"], [CellVal.str "AAAA3"],
        [[CellVal.str "15%", CellVal.num 3]]⟩
      ⟨["ROIC", "P/L"], [CellVal.str "AAAA3"],
        [[CellVal.num ((15 : ℕ) : ℚ), CellVal.num 3]]⟩
      (by decide) rfl).1⟩

/-- C9: On the spec's method-2 fixture — AAAA3 (EV/EBIT 0.2, ROIC 10),
BBBB3 (8, 60), CCCC3 (4, 40), DDDD4 (2, 90) — the Rank stage produces the
order DDDD4 (final rank 3), AAAA3 (final rank 5), then BBBB3 and CCCC3 tied
at final rank 6 in their original relative order.  (`q0_2` is the rational
0.2.) -/
theorem C9_method2_fixture :
    q0_2 = 0.2 ∧
    calculate_rank
      [Row.data "AAAA3" q0_2 10 1, Row.data "BBBB3" 8 60 1,
        Row.data "CCCC3" 4 40 1, Row.data "DDDD4" 2 90 1] =
      [Row.mk "DDDD4" 2 90 1 (some 2) (some 1) (some 3),
        Row.mk "AAAA3" q0_2 10 1 (some 1) (some 4) (some 5),
        Row.mk "BBBB3" 8 60 1 (some 4) (some 2) (some 6),
        Row.mk "CCCC3" 4 40 1 (some 3) (some 3) (some 6)] := by
  constructor
  · rw [q0_2, Rat.mk'_eq_divInt, Rat.divInt_eq_div]
    norm_num
  · decide

/-! ### `display_results` leaves the caller's frame unchanged -/

/-- C10: For every heap of frames, every reference into it and every
combination of method, verbosity and top-N arguments, `display_results`
leaves every pre-existing frame — in particular the caller's — unchanged:
its mutations go to the freshly allocated copy only. -/
theorem C10_display_results_pure (heap : List Frame) (dfRef method verbose : ℕ)
    (top : ℤ) (i : ℕ) (hi : i < heap.length) :
    (display_results heap dfRef method verbose top).1[i]? = heap[i]? := by
  have hne : heap.length ≠ i := Nat.ne_of_gt hi
  have happ : ∀ x : Frame, (heap ++ [x])[i]? = heap[i]? := fun x => by
    rw [List.getElem?_append, if_pos hi]
  cases hm : MAGIC_METHOD_FIELD method with
  | none =>
    simp only [display_results, hm]
    exact happ _
  | some mcols =>
    simp only [display_results, hm]
    rw [List.getElem?_set_ne hne, List.getElem?_set_ne hne]
    exact happ _

theorem C10_display_results_pure_witness :
    (display_results [⟨["ROIC"], [], []⟩] 0 2 0 20).1[0]? =
      some ⟨["ROIC"], [], []⟩ := by
  rw [C10_display_results_pure [⟨["ROIC"], [], []⟩] 0 2 0 20 0 (by decide)]
  rfl
